import Mathlib

/-!
Verification of the wintun binding surface of tun-rs.

The only file under src/ is `src/platform/windows/tun/wintun_functions.h`,
which declares typed slots for the entry points of the wintun driver.  The
declarations are embedded directly as a list of symbol names.  The behaviour
of the TUN Session Manager built atop those slots (session lifecycle, ring
buffers, packet handles) is not in src/; it is modelled here from the spec,
as an explicit state machine with a step function that rejects contract
violations.
-/

namespace Wintun

/-- The entry-point declarations of `wintun_functions.h`, lines 3-16, one
symbol name per declaration, in source order. -/
def wintunFunctionDeclarations : List String :=
  ["WintunCreateAdapter",
   "WintunCloseAdapter",
   "WintunOpenAdapter",
   "WintunGetAdapterLUID",
   "WintunGetRunningDriverVersion",
   "WintunDeleteDriver",
   "WintunSetLogger",
   "WintunStartSession",
   "WintunEndSession",
   "WintunGetReadWaitEvent",
   "WintunReceivePacket",
   "WintunReleaseReceivePacket",
   "WintunAllocateSendPacket",
   "WintunSendPacket"]

/-- Modelled from the spec: the error taxonomy of section 7 (the session
manager itself is absent from src/, only its entry-point slots are). -/
inductive WintunError where
  | DriverError
  | NotFound
  | ResourceExhausted
  | EAGAIN
  deriving DecidableEq, Repr

/-- Modelled from the spec: a Session bound to one Adapter.  `recvQueue` is
the inbound ring content (packet ids queued by the driver), `nextPacket`
the driver's fresh packet-id counter, `receivedLog` the history of handles
handed out by ReceivePacket, `outstandingRecv` those not yet released,
`releasedRecv` those released, and `sendOutstanding` the number of send
buffers allocated and not yet committed. -/
structure Session where
  ringCapacity : Nat
  recvQueue : List Nat
  nextPacket : Nat
  receivedLog : List Nat
  outstandingRecv : List Nat
  releasedRecv : List Nat
  sendOutstanding : Nat
  deriving DecidableEq, Repr

/-- A fresh session with the given ring capacity and empty rings. -/
def mkSession (cap : Nat) : Session :=
  { ringCapacity := cap
    recvQueue := []
    nextPacket := 0
    receivedLog := []
    outstandingRecv := []
    releasedRecv := []
    sendOutstanding := 0 }

/-- Modelled from the spec: driver-defined bounds on the ring capacity. -/
structure DriverBounds where
  minCap : Nat
  maxCap : Nat
  deriving DecidableEq, Repr

/-- `n` is a power of two (a bounded search over the possible exponents,
which all lie below `n + 1`). -/
def isPowTwo (n : Nat) : Bool :=
  (List.range (n + 1)).any fun k => n == 2 ^ k

/-- Modelled from the spec: the StartSession precondition, a power-of-two
capacity within driver-defined bounds. -/
def capacityOk (b : DriverBounds) (cap : Nat) : Bool :=
  isPowTwo cap && decide (b.minCap ≤ cap) && decide (cap ≤ b.maxCap)

/-- Concrete driver bounds used by the whole-system model. -/
def defaultBounds : DriverBounds :=
  { minCap := 1, maxCap := 67108864 }

/-- Modelled from the spec: StartSession.  `availMem` is the memory the
driver can still commit; allocation fails with ResourceExhausted when the
requested capacity cannot be allocated, and a violated precondition is a
driver-level error. -/
def startSession (b : DriverBounds) (availMem : Nat) (cap : Nat) :
    Except WintunError Session :=
  if capacityOk b cap then
    if availMem < cap then .error .ResourceExhausted
    else .ok (mkSession cap)
  else .error .DriverError

/-- Modelled from the spec: ReceivePacket, non-blocking.  An empty receive
ring yields the EAGAIN retry signal; otherwise the head of the queue is
returned as the packet handle and recorded as outstanding. -/
def receivePacket (s : Session) : Except WintunError (Nat × Session) :=
  match s.recvQueue with
  | [] => .error .EAGAIN
  | p :: rest =>
      .ok (p,
        { s with
          recvQueue := rest
          receivedLog := s.receivedLog ++ [p]
          outstandingRecv := p :: s.outstandingRecv })

/-- Modelled from the spec: a writable send buffer of the requested size. -/
structure SendPacket where
  size : Nat
  deriving DecidableEq, Repr

/-- Modelled from the spec: AllocateSendPacket.  Fails with
ResourceExhausted exactly when the send ring is full (as many outstanding
buffers as the ring capacity); otherwise reserves a buffer of the requested
size. -/
def allocateSendPacket (s : Session) (size : Nat) :
    Except WintunError (SendPacket × Session) :=
  if s.ringCapacity ≤ s.sendOutstanding then .error .ResourceExhausted
  else .ok ({ size := size }, { s with sendOutstanding := s.sendOutstanding + 1 })

/-- `n` successive send-packet allocations of 100 bytes, none completing. -/
def allocChain (s : Session) : Nat → Except WintunError Session
  | 0 => .ok s
  | n + 1 => (allocChain s n).bind fun s' => (allocateSendPacket s' 100).map Prod.snd

/-- Modelled from the spec: the per-Adapter lifecycle phases of section 4. -/
inductive AdapterPhase where
  | Unopened
  | Open
  | SessionActive
  | Closed
  deriving DecidableEq, Repr

/-- Modelled from the spec: what a signalled read-wait event means to a
blocked waiter - a packet became available, or the session ended
(terminal). -/
inductive WaitSignal where
  | packetAvailable
  | sessionEnded
  deriving DecidableEq, Repr

/-- Modelled from the spec: the observable whole-system state - one
Adapter's lifecycle phase, its Session when one is active, the adapter's
LUID, and the state of the session's read-wait event (`none` means
unsignalled, so a waiter blocks). -/
structure SysState where
  phase : AdapterPhase
  session : Option Session
  luid : Nat
  waitEvent : Option WaitSignal
  deriving DecidableEq, Repr

/-- The initial state: adapter not yet created or opened. -/
def initState : SysState :=
  { phase := .Unopened, session := none, luid := 0, waitEvent := none }

/-- Modelled from the spec: GetAdapterLUID, a pure query on an adapter that
exists (open or with a session active); it returns the LUID and the state
unchanged. -/
def getAdapterLUID (s : SysState) : Option (Nat × SysState) :=
  if s.phase = .Open ∨ s.phase = .SessionActive then some (s.luid, s) else none

/-- The API and driver events of the session manager.  `packetArrives` is
the driver queueing an inbound packet. -/
inductive Event where
  | createAdapter
  | openAdapter
  | closeAdapter
  | startSessionEv (cap : Nat)
  | endSession
  | packetArrives
  | receivePacketEv
  | releaseReceivePacketEv (h : Nat)
  | allocateSendPacketEv (size : Nat)
  | sendPacketEv
  | getAdapterLUIDEv
  deriving DecidableEq, Repr

/-- Modelled from the spec: the step function of the session manager.
`none` is a contract violation (use outside the documented lifecycle);
valid executions are those in which every step succeeds. -/
def step (s : SysState) (e : Event) : Option SysState :=
  match e with
  | .createAdapter =>
      if s.phase = .Unopened then some { s with phase := .Open } else none
  | .openAdapter =>
      if s.phase = .Unopened then some { s with phase := .Open } else none
  | .closeAdapter =>
      if s.phase = .Open then some { s with phase := .Closed } else none
  | .startSessionEv cap =>
      if s.phase = .Open ∧ capacityOk defaultBounds cap = true then
        some { s with phase := .SessionActive, session := some (mkSession cap),
                      waitEvent := none }
      else none
  | .endSession =>
      match s.session with
      | some sess =>
          if s.phase = .SessionActive ∧ sess.outstandingRecv = [] then
            some { s with phase := .Open, session := none,
                          waitEvent := some .sessionEnded }
          else none
      | none => none
  | .packetArrives =>
      match s.session with
      | some sess =>
          if s.phase = .SessionActive then
            some { s with
                   session := some { sess with
                     recvQueue := sess.recvQueue ++ [sess.nextPacket]
                     nextPacket := sess.nextPacket + 1 }
                   waitEvent := some .packetAvailable }
          else none
      | none => none
  | .receivePacketEv =>
      match s.session with
      | some sess =>
          if s.phase = .SessionActive then
            match receivePacket sess with
            | .ok (_, sess') => some { s with session := some sess' }
            | .error _ => some s
          else none
      | none => none
  | .releaseReceivePacketEv h =>
      match s.session with
      | some sess =>
          if s.phase = .SessionActive ∧ h ∈ sess.outstandingRecv then
            some { s with
                   session := some { sess with
                     outstandingRecv := sess.outstandingRecv.erase h
                     releasedRecv := h :: sess.releasedRecv } }
          else none
      | none => none
  | .allocateSendPacketEv size =>
      match s.session with
      | some sess =>
          if s.phase = .SessionActive then
            match allocateSendPacket sess size with
            | .ok (_, sess') => some { s with session := some sess' }
            | .error _ => some s
          else none
      | none => none
  | .sendPacketEv =>
      match s.session with
      | some sess =>
          if s.phase = .SessionActive ∧ 0 < sess.sendOutstanding then
            some { s with
                   session := some { sess with
                     sendOutstanding := sess.sendOutstanding - 1 } }
          else none
      | none => none
  | .getAdapterLUIDEv =>
      match getAdapterLUID s with
      | some (_, s') => some s'
      | none => none

/-- Run a list of events from a state; `none` as soon as any step is a
contract violation. -/
def runTrace (s : SysState) : List Event → Option SysState
  | [] => some s
  | e :: es =>
      match step s e with
      | some s' => runTrace s' es
      | none => none

/-- A state is reachable when some valid execution from the initial state
ends in it. -/
def Reachable (s : SysState) : Prop :=
  ∃ es, runTrace initState es = some s

/-- The documented per-adapter phase order: a step either keeps the phase
or moves along `Unopened → Open → (Session Active) → Open → Closed`. -/
def phaseStepOk (p q : AdapterPhase) : Bool :=
  p == q ||
    match p, q with
    | .Unopened, .Open => true
    | .Open, .SessionActive => true
    | .SessionActive, .Open => true
    | .Open, .Closed => true
    | _, _ => false

/-- The session-level resource invariant: every queued or received packet
id is below the driver's fresh counter, the ids are pairwise distinct, and
the received handles are exactly the outstanding ones together with the
released ones. -/
def SessInv (sess : Session) : Prop :=
  (∀ h ∈ sess.receivedLog ++ sess.recvQueue, h < sess.nextPacket) ∧
  (sess.receivedLog ++ sess.recvQueue).Nodup ∧
  sess.receivedLog.Perm (sess.outstandingRecv ++ sess.releasedRecv)

/-- The whole-system invariant: a Session exists exactly in the
SessionActive phase, and it satisfies the session-level invariant. -/
def Inv (s : SysState) : Prop :=
  (s.phase = .SessionActive ↔ s.session.isSome = true) ∧
  ∀ sess, s.session = some sess → SessInv sess

theorem sessInv_mkSession (cap : Nat) : SessInv (mkSession cap) := by
  refine ⟨?_, ?_, ?_⟩ <;> simp [mkSession]

theorem sessInv_arrive (sess : Session) (hinv : SessInv sess) :
    SessInv { sess with
      recvQueue := sess.recvQueue ++ [sess.nextPacket]
      nextPacket := sess.nextPacket + 1 } := by
  obtain ⟨h1, h2, h3⟩ := hinv
  refine ⟨?_, ?_, h3⟩
  · intro x hx
    simp only [List.mem_append, List.mem_singleton] at hx
    rcases hx with hx | hx | hx
    · exact Nat.lt_succ_of_lt (h1 x (List.mem_append_left _ hx))
    · exact Nat.lt_succ_of_lt (h1 x (List.mem_append_right _ hx))
    · exact hx ▸ Nat.lt_succ_self _
  · rw [← List.append_assoc]
    refine List.Nodup.append h2 (List.nodup_singleton _) ?_
    rw [List.disjoint_singleton]
    intro hmem
    exact absurd (h1 _ hmem) (Nat.lt_irrefl _)

theorem sessInv_receive (sess : Session) (p : Nat) (rest : List Nat)
    (hq : sess.recvQueue = p :: rest) (hinv : SessInv sess) :
    SessInv { sess with
      recvQueue := rest
      receivedLog := sess.receivedLog ++ [p]
      outstandingRecv := p :: sess.outstandingRecv } := by
  obtain ⟨h1, h2, h3⟩ := hinv
  rw [hq] at h1 h2
  refine ⟨?_, ?_, ?_⟩
  · intro x hx
    apply h1 x
    simp only [List.mem_append, List.mem_singleton, List.mem_cons] at hx ⊢
    tauto
  · rw [List.append_assoc, List.singleton_append]
    exact h2
  · exact (List.perm_append_singleton p _).trans (h3.cons p)

theorem sessInv_release (sess : Session) (h : Nat)
    (hmem : h ∈ sess.outstandingRecv) (hinv : SessInv sess) :
    SessInv { sess with
      outstandingRecv := sess.outstandingRecv.erase h
      releasedRecv := h :: sess.releasedRecv } := by
  obtain ⟨h1, h2, h3⟩ := hinv
  refine ⟨h1, h2, ?_⟩
  show sess.receivedLog.Perm
    (sess.outstandingRecv.erase h ++ h :: sess.releasedRecv)
  have e1 : sess.outstandingRecv.Perm (h :: sess.outstandingRecv.erase h) :=
    List.perm_cons_erase hmem
  have e2 : (sess.outstandingRecv ++ sess.releasedRecv).Perm
      (h :: (sess.outstandingRecv.erase h ++ sess.releasedRecv)) :=
    e1.append_right _
  have e3 : (sess.outstandingRecv.erase h ++ h :: sess.releasedRecv).Perm
      (h :: (sess.outstandingRecv.erase h ++ sess.releasedRecv)) :=
    List.perm_middle
  exact (h3.trans e2).trans e3.symm

theorem receivePacket_ok (sess : Session) (p : Nat) (sess' : Session)
    (h : receivePacket sess = .ok (p, sess')) :
    ∃ rest, sess.recvQueue = p :: rest ∧
      sess' = { sess with
        recvQueue := rest
        receivedLog := sess.receivedLog ++ [p]
        outstandingRecv := p :: sess.outstandingRecv } := by
  unfold receivePacket at h
  cases hq : sess.recvQueue with
  | nil => rw [hq] at h; exact absurd h (by simp)
  | cons q rest =>
      rw [hq] at h
      simp only [Except.ok.injEq, Prod.mk.injEq] at h
      obtain ⟨hqp, hs⟩ := h
      subst hqp
      exact ⟨rest, rfl, hs.symm⟩

theorem allocateSendPacket_ok (sess : Session) (size : Nat)
    (pkt : SendPacket) (sess' : Session)
    (h : allocateSendPacket sess size = .ok (pkt, sess')) :
    sess' = { sess with sendOutstanding := sess.sendOutstanding + 1 } := by
  unfold allocateSendPacket at h
  split at h
  · exact absurd h (by simp)
  · simp only [Except.ok.injEq, Prod.mk.injEq] at h
    exact h.2.symm

theorem sessInv_sendUpdate (sess : Session) (k : Nat) (h : SessInv sess) :
    SessInv { sess with sendOutstanding := k } := h

theorem session_none_of_phase_ne (s : SysState) (hinv : Inv s)
    (h : s.phase ≠ .SessionActive) : s.session = none := by
  cases hs : s.session with
  | none => rfl
  | some sess => exact absurd (hinv.1.mpr (by simp [hs])) h

theorem inv_init : Inv initState := by
  constructor
  · simp [initState]
  · intro sess h
    simp [initState] at h

theorem inv_step (s : SysState) (e : Event) (s' : SysState)
    (hinv : Inv s) (hstep : step s e = some s') : Inv s' := by
  obtain ⟨hps, hsi⟩ := hinv
  cases e with
  | createAdapter =>
      simp only [step] at hstep
      split at hstep
      · rename_i hph
        have hnone : s.session = none :=
          session_none_of_phase_ne s ⟨hps, hsi⟩ (by rw [hph]; simp)
        injection hstep with heq
        subst heq
        constructor
        · simp [hnone]
        · intro sess hsess
          simp [hnone] at hsess
      · simp at hstep
  | openAdapter =>
      simp only [step] at hstep
      split at hstep
      · rename_i hph
        have hnone : s.session = none :=
          session_none_of_phase_ne s ⟨hps, hsi⟩ (by rw [hph]; simp)
        injection hstep with heq
        subst heq
        constructor
        · simp [hnone]
        · intro sess hsess
          simp [hnone] at hsess
      · simp at hstep
  | closeAdapter =>
      simp only [step] at hstep
      split at hstep
      · rename_i hph
        have hnone : s.session = none :=
          session_none_of_phase_ne s ⟨hps, hsi⟩ (by rw [hph]; simp)
        injection hstep with heq
        subst heq
        constructor
        · simp [hnone]
        · intro sess hsess
          simp [hnone] at hsess
      · simp at hstep
  | startSessionEv cap =>
      simp only [step] at hstep
      split at hstep
      · injection hstep with heq
        subst heq
        constructor
        · simp
        · intro sess hsess
          simp only [Option.some.injEq] at hsess
          subst hsess
          exact sessInv_mkSession cap
      · simp at hstep
  | endSession =>
      cases hsess : s.session with
      | none => simp [step, hsess] at hstep
      | some sess =>
          simp only [step, hsess] at hstep
          split at hstep
          · injection hstep with heq
            subst heq
            constructor
            · simp
            · intro sess' hsess'
              simp at hsess'
          · simp at hstep
  | packetArrives =>
      cases hsess : s.session with
      | none => simp [step, hsess] at hstep
      | some sess =>
          simp only [step, hsess] at hstep
          split at hstep
          · rename_i hph
            injection hstep with heq
            subst heq
            constructor
            · simp [hph]
            · intro sess' hsess'
              simp only [Option.some.injEq] at hsess'
              subst hsess'
              exact sessInv_arrive sess (hsi sess hsess)
          · simp at hstep
  | receivePacketEv =>
      cases hsess : s.session with
      | none => simp [step, hsess] at hstep
      | some sess =>
          simp only [step, hsess] at hstep
          split at hstep
          · rename_i hph
            cases hrp : receivePacket sess with
            | error err =>
                rw [hrp] at hstep
                injection hstep with heq
                subst heq
                exact ⟨hps, hsi⟩
            | ok pr =>
                obtain ⟨p, sess'⟩ := pr
                rw [hrp] at hstep
                injection hstep with heq
                subst heq
                constructor
                · simp [hph]
                · intro sess'' hsess''
                  simp only [Option.some.injEq] at hsess''
                  subst hsess''
                  obtain ⟨rest, hq, hdef⟩ := receivePacket_ok sess p sess' hrp
                  rw [hdef]
                  exact sessInv_receive sess p rest hq (hsi sess hsess)
          · simp at hstep
  | releaseReceivePacketEv h =>
      cases hsess : s.session with
      | none => simp [step, hsess] at hstep
      | some sess =>
          simp only [step, hsess] at hstep
          split at hstep
          · rename_i hcond
            injection hstep with heq
            subst heq
            constructor
            · simp [hcond.1]
            · intro sess' hsess'
              simp only [Option.some.injEq] at hsess'
              subst hsess'
              exact sessInv_release sess h hcond.2 (hsi sess hsess)
          · simp at hstep
  | allocateSendPacketEv size =>
      cases hsess : s.session with
      | none => simp [step, hsess] at hstep
      | some sess =>
          simp only [step, hsess] at hstep
          split at hstep
          · rename_i hph
            cases hra : allocateSendPacket sess size with
            | error err =>
                rw [hra] at hstep
                injection hstep with heq
                subst heq
                exact ⟨hps, hsi⟩
            | ok pr =>
                obtain ⟨pkt, sess'⟩ := pr
                rw [hra] at hstep
                injection hstep with heq
                subst heq
                constructor
                · simp [hph]
                · intro sess'' hsess''
                  simp only [Option.some.injEq] at hsess''
                  subst hsess''
                  rw [allocateSendPacket_ok sess size pkt sess' hra]
                  exact sessInv_sendUpdate sess _ (hsi sess hsess)
          · simp at hstep
  | sendPacketEv =>
      cases hsess : s.session with
      | none => simp [step, hsess] at hstep
      | some sess =>
          simp only [step, hsess] at hstep
          split at hstep
          · rename_i hcond
            injection hstep with heq
            subst heq
            constructor
            · simp [hcond.1]
            · intro sess' hsess'
              simp only [Option.some.injEq] at hsess'
              subst hsess'
              exact sessInv_sendUpdate sess _ (hsi sess hsess)
          · simp at hstep
  | getAdapterLUIDEv =>
      simp only [step] at hstep
      by_cases hc : s.phase = .Open ∨ s.phase = .SessionActive
      · rw [getAdapterLUID, if_pos hc] at hstep
        simp only [Option.some.injEq] at hstep
        rw [← hstep]
        exact ⟨hps, hsi⟩
      · rw [getAdapterLUID, if_neg hc] at hstep
        simp at hstep

theorem runTrace_inv (es : List Event) (s s' : SysState)
    (hinv : Inv s) (hrun : runTrace s es = some s') : Inv s' := by
  induction es generalizing s with
  | nil =>
      simp only [runTrace, Option.some.injEq] at hrun
      subst hrun
      exact hinv
  | cons e es ih =>
      rw [runTrace] at hrun
      cases hstep : step s e with
      | none => rw [hstep] at hrun; simp at hrun
      | some s1 =>
          rw [hstep] at hrun
          exact ih s1 (inv_step s e s1 hinv hstep) hrun

theorem reachable_inv (s : SysState) (h : Reachable s) : Inv s := by
  obtain ⟨es, hrun⟩ := h
  exact runTrace_inv es initState s inv_init hrun

/-! Concrete states and traces used by the witnesses. -/

/-- The state after creating the adapter. -/
def openedState : SysState :=
  { phase := .Open, session := none, luid := 0, waitEvent := none }

/-- The state after closing the adapter. -/
def closedAdapterState : SysState :=
  { phase := .Closed, session := none, luid := 0, waitEvent := none }

/-- A short valid execution: create the adapter, start a session with ring
capacity 4, let one packet arrive, receive it, release it. -/
def demoEvents : List Event :=
  [.createAdapter, .startSessionEv 4, .packetArrives, .receivePacketEv,
   .releaseReceivePacketEv 0]

/-- The session at the end of `demoEvents`: one handle received and
released. -/
def demoSess : Session :=
  { ringCapacity := 4, recvQueue := [], nextPacket := 1,
    receivedLog := [0], outstandingRecv := [], releasedRecv := [0],
    sendOutstanding := 0 }

/-- The system state at the end of `demoEvents`. -/
def demoSys : SysState :=
  { phase := .SessionActive, session := some demoSess, luid := 0,
    waitEvent := some .packetAvailable }

/-- The system state after ending the session from `demoSys`. -/
def demoEnded : SysState :=
  { phase := .Open, session := none, luid := 0,
    waitEvent := some .sessionEnded }

/-- An active session whose read-wait event is unsignalled, so a waiter on
it blocks. -/
def blockedSys : SysState :=
  { phase := .SessionActive, session := some (mkSession 4), luid := 0,
    waitEvent := none }

/-! The claims. -/

/-- C1 counterexample: the number of entry-point declarations in
`wintun_functions.h` is not eleven. -/
theorem wintun_decl_count_not_eleven :
    ¬ wintunFunctionDeclarations.length = 11 := by decide

/-- C1 (amended): the binding surface exposes exactly fourteen
function-pointer slots: the number of entry-point declarations in the
header equals fourteen. -/
theorem wintun_decl_count_fourteen :
    wintunFunctionDeclarations.length = 14 := by rfl

/-- C10: the header declares exactly fourteen distinct driver entry-point
symbols, each declared exactly once. -/
theorem wintun_decls_fourteen_distinct :
    wintunFunctionDeclarations.length = 14 ∧
      wintunFunctionDeclarations.Nodup := by
  exact ⟨rfl, by decide⟩

/-- C2: ReceivePacket on a Session with an empty receive ring returns the
EAGAIN retry signal (and, being a total function, never blocks); on a
non-empty ring it returns the next queued inbound packet handle. -/
theorem receivePacket_empty_eagain (s : Session) :
    (s.recvQueue = [] → receivePacket s = .error .EAGAIN) ∧
    (∀ p rest, s.recvQueue = p :: rest →
      ∃ s', receivePacket s = .ok (p, s')) := by
  constructor
  · intro h
    unfold receivePacket
    rw [h]
  · intro p rest h
    unfold receivePacket
    rw [h]
    exact ⟨_, rfl⟩

/-- C2 witness: the empty ring of a fresh session yields EAGAIN, and a
ring holding packet 5 yields packet 5. -/
theorem receivePacket_empty_eagain_witness :
    receivePacket (mkSession 4) = .error .EAGAIN ∧
      ∃ s', receivePacket { mkSession 4 with recvQueue := [5] } =
        .ok (5, s') :=
  ⟨(receivePacket_empty_eagain (mkSession 4)).1 rfl,
   (receivePacket_empty_eagain { mkSession 4 with recvQueue := [5] }).2
     5 [] rfl⟩

/-- C3: in every reachable state, a CloseAdapter step can only succeed
while no Session is active - the session has already been ended. -/
theorem closeAdapter_requires_session_ended (s s' : SysState)
    (hre : Reachable s) (hstep : step s .closeAdapter = some s') :
    s.phase ≠ .SessionActive ∧ s.session = none := by
  have hinv := reachable_inv s hre
  simp only [step] at hstep
  split at hstep
  · rename_i hph
    have hne : s.phase ≠ .SessionActive := by rw [hph]; simp
    exact ⟨hne, session_none_of_phase_ne s hinv hne⟩
  · simp at hstep

/-- C3 witness: after creating the adapter, CloseAdapter succeeds and no
session is active there. -/
theorem closeAdapter_requires_session_ended_witness :
    openedState.phase ≠ .SessionActive ∧ openedState.session = none :=
  closeAdapter_requires_session_ended openedState closedAdapterState
    ⟨[.createAdapter], by rfl⟩ (by rfl)

/-- C4: when the requested ring capacity is a power of two within the
driver-defined bounds, StartSession either returns a Session or fails
with ResourceExhausted (when the capacity cannot be allocated). -/
theorem startSession_session_or_exhausted (b : DriverBounds)
    (avail cap : Nat) (hpow : isPowTwo cap = true)
    (hmin : b.minCap ≤ cap) (hmax : cap ≤ b.maxCap) :
    (∃ sess, startSession b avail cap = .ok sess) ∨
      startSession b avail cap = .error .ResourceExhausted := by
  have hcap : capacityOk b cap = true := by
    simp [capacityOk, hpow, hmin, hmax]
  unfold startSession
  rw [if_pos hcap]
  by_cases hm : avail < cap
  · rw [if_pos hm]
    exact Or.inr rfl
  · rw [if_neg hm]
    exact Or.inl ⟨_, rfl⟩

/-- C4 witness: capacity 4 is a power of two within the default bounds,
and StartSession settles one way or the other there. -/
theorem startSession_session_or_exhausted_witness :
    (∃ sess, startSession defaultBounds 1000000 4 = .ok sess) ∨
      startSession defaultBounds 1000000 4 = .error .ResourceExhausted :=
  startSession_session_or_exhausted defaultBounds 1000000 4
    (by decide) (by decide) (by decide)

/-- C5: AllocateSendPacket fails with ResourceExhausted exactly when the
send ring is full, otherwise reserves a buffer of the requested size; in
particular, with ring capacity 4, four outstanding allocations succeed
and a fifth fails with ResourceExhausted. -/
theorem allocateSendPacket_exhausted_iff_full (s : Session) (size : Nat) :
    (allocateSendPacket s size = .error .ResourceExhausted ↔
      s.ringCapacity ≤ s.sendOutstanding) ∧
    (s.sendOutstanding < s.ringCapacity →
      ∃ s', allocateSendPacket s size = .ok ({ size := size }, s')) ∧
    (∃ s4, allocChain (mkSession 4) 4 = .ok s4) ∧
    allocChain (mkSession 4) 5 = .error .ResourceExhausted := by
  refine ⟨?_, ?_, ?_, ?_⟩
  · unfold allocateSendPacket
    by_cases hfull : s.ringCapacity ≤ s.sendOutstanding
    · rw [if_pos hfull]
      simp [hfull]
    · rw [if_neg hfull]
      simp [hfull]
  · intro hlt
    unfold allocateSendPacket
    rw [if_neg (by omega)]
    exact ⟨_, rfl⟩
  · exact ⟨{ ringCapacity := 4, recvQueue := [], nextPacket := 0,
             receivedLog := [], outstandingRecv := [], releasedRecv := [],
             sendOutstanding := 4 }, by rfl⟩
  · rfl

/-- C5 witness: on a fresh capacity-4 session the first allocation of a
100-byte buffer succeeds with that size. -/
theorem allocateSendPacket_exhausted_iff_full_witness :
    ∃ s', allocateSendPacket (mkSession 4) 100 =
      .ok ({ size := 100 }, s') :=
  (allocateSendPacket_exhausted_iff_full (mkSession 4) 100).2.1 (by decide)

/-- C6: GetAdapterLUID is a pure query - whenever it answers, it returns
the adapter's LUID and the observable state unchanged. -/
theorem getAdapterLUID_pure (s : SysState) (r : Nat) (s' : SysState)
    (h : getAdapterLUID s = some (r, s')) : r = s.luid ∧ s' = s := by
  unfold getAdapterLUID at h
  split at h
  · simp only [Option.some.injEq, Prod.mk.injEq] at h
    exact ⟨h.1.symm, h.2.symm⟩
  · simp at h

/-- C6 witness: querying the LUID on the opened adapter returns its LUID
and leaves the state as it was. -/
theorem getAdapterLUID_pure_witness :
    (0 : Nat) = openedState.luid ∧ openedState = openedState :=
  getAdapterLUID_pure openedState 0 openedState (by decide)

/-- C7: every successful step keeps the adapter phase or moves it along
the documented lifecycle `Unopened → Open → (Session Active) → Open →
Closed`; no other phase transition ever occurs. -/
theorem step_respects_phase_order (s : SysState) (e : Event) (s' : SysState)
    (hstep : step s e = some s') : phaseStepOk s.phase s'.phase = true := by
  cases e with
  | createAdapter =>
      simp only [step] at hstep
      split at hstep
      · rename_i hph
        injection hstep with heq
        subst heq
        rw [hph]
        rfl
      · simp at hstep
  | openAdapter =>
      simp only [step] at hstep
      split at hstep
      · rename_i hph
        injection hstep with heq
        subst heq
        rw [hph]
        rfl
      · simp at hstep
  | closeAdapter =>
      simp only [step] at hstep
      split at hstep
      · rename_i hph
        injection hstep with heq
        subst heq
        rw [hph]
        rfl
      · simp at hstep
  | startSessionEv cap =>
      simp only [step] at hstep
      split at hstep
      · rename_i hcond
        injection hstep with heq
        subst heq
        rw [hcond.1]
        rfl
      · simp at hstep
  | endSession =>
      cases hsess : s.session with
      | none => simp [step, hsess] at hstep
      | some sess =>
          simp only [step, hsess] at hstep
          split at hstep
          · rename_i hcond
            injection hstep with heq
            subst heq
            rw [hcond.1]
            rfl
          · simp at hstep
  | packetArrives =>
      cases hsess : s.session with
      | none => simp [step, hsess] at hstep
      | some sess =>
          simp only [step, hsess] at hstep
          split at hstep
          · rename_i hph
            injection hstep with heq
            subst heq
            rw [hph]
            rfl
          · simp at hstep
  | receivePacketEv =>
      cases hsess : s.session with
      | none => simp [step, hsess] at hstep
      | some sess =>
          simp only [step, hsess] at hstep
          split at hstep
          · rename_i hph
            cases hrp : receivePacket sess with
            | error err =>
                rw [hrp] at hstep
                injection hstep with heq
                subst heq
                simp [phaseStepOk]
            | ok pr =>
                obtain ⟨p, sess'⟩ := pr
                rw [hrp] at hstep
                injection hstep with heq
                subst heq
                rw [hph]
                rfl
          · simp at hstep
  | releaseReceivePacketEv h =>
      cases hsess : s.session with
      | none => simp [step, hsess] at hstep
      | some sess =>
          simp only [step, hsess] at hstep
          split at hstep
          · rename_i hcond
            injection hstep with heq
            subst heq
            rw [hcond.1]
            rfl
          · simp at hstep
  | allocateSendPacketEv size =>
      cases hsess : s.session with
      | none => simp [step, hsess] at hstep
      | some sess =>
          simp only [step, hsess] at hstep
          split at hstep
          · rename_i hph
            cases hra : allocateSendPacket sess size with
            | error err =>
                rw [hra] at hstep
                injection hstep with heq
                subst heq
                simp [phaseStepOk]
            | ok pr =>
                obtain ⟨pkt, sess'⟩ := pr
                rw [hra] at hstep
                injection hstep with heq
                subst heq
                rw [hph]
                rfl
          · simp at hstep
  | sendPacketEv =>
      cases hsess : s.session with
      | none => simp [step, hsess] at hstep
      | some sess =>
          simp only [step, hsess] at hstep
          split at hstep
          · rename_i hcond
            injection hstep with heq
            subst heq
            rw [hcond.1]
            rfl
          · simp at hstep
  | getAdapterLUIDEv =>
      simp only [step] at hstep
      by_cases hc : s.phase = .Open ∨ s.phase = .SessionActive
      · rw [getAdapterLUID, if_pos hc] at hstep
        simp only [Option.some.injEq] at hstep
        rw [← hstep]
        simp [phaseStepOk]
      · rw [getAdapterLUID, if_neg hc] at hstep
        simp at hstep

/-- C7 witness: creating the adapter moves the phase from Unopened to
Open, which the documented order allows. -/
theorem step_respects_phase_order_witness :
    phaseStepOk initState.phase openedState.phase = true :=
  step_respects_phase_order initState .createAdapter openedState (by rfl)

/-- C8: in every reachable state from which EndSession succeeds, every
packet handle ever obtained from ReceivePacket on that Session has been
released exactly once. -/
theorem receive_handles_released_exactly_once (s s' : SysState)
    (sess : Session) (hre : Reachable s) (hsess : s.session = some sess)
    (hstep : step s .endSession = some s') (h : Nat)
    (hmem : h ∈ sess.receivedLog) :
    sess.releasedRecv.count h = 1 := by
  have hinv := reachable_inv s hre
  have hsi := hinv.2 sess hsess
  simp only [step, hsess] at hstep
  split at hstep
  · rename_i hcond
    obtain ⟨hph, hout⟩ := hcond
    obtain ⟨h1, h2, h3⟩ := hsi
    rw [hout, List.nil_append] at h3
    have hnodup : sess.receivedLog.Nodup := h2.of_append_left
    have hmem' : h ∈ sess.releasedRecv := h3.mem_iff.mp hmem
    exact List.count_eq_one_of_mem (h3.nodup hnodup) hmem'
  · simp at hstep

/-- C8 witness: at the end of `demoEvents` the one received handle has
been released exactly once, and EndSession succeeds there. -/
theorem receive_handles_released_exactly_once_witness :
    demoSess.releasedRecv.count 0 = 1 :=
  receive_handles_released_exactly_once demoSys demoEnded demoSess
    ⟨demoEvents, by rfl⟩ rfl (by rfl) 0 (by decide)

/-- C9: when EndSession succeeds while the read-wait event is unsignalled
(a waiter would be blocked), the event becomes signalled with the
session-end signal, which is distinct from packet-availability. -/
theorem endSession_signals_terminal (s s' : SysState)
    (_hblocked : s.waitEvent = none)
    (hstep : step s .endSession = some s') :
    s'.waitEvent = some .sessionEnded ∧
      WaitSignal.sessionEnded ≠ WaitSignal.packetAvailable := by
  cases hsess : s.session with
  | none => simp [step, hsess] at hstep
  | some sess =>
      simp only [step, hsess] at hstep
      split at hstep
      · injection hstep with heq
        subst heq
        exact ⟨rfl, by decide⟩
      · simp at hstep

/-- C9 witness: ending the session of `blockedSys` signals the wait event
with the terminal session-end signal. -/
theorem endSession_signals_terminal_witness :
    ({ phase := .Open, session := none, luid := 0,
       waitEvent := some .sessionEnded } : SysState).waitEvent =
        some .sessionEnded ∧
      WaitSignal.sessionEnded ≠ WaitSignal.packetAvailable :=
  endSession_signals_terminal blockedSys
    { phase := .Open, session := none, luid := 0,
      waitEvent := some .sessionEnded } rfl (by rfl)

end Wintun
